import Mathlib

/-!
Verification of the multi-round interview progression state machine of the
INTERVIEW-AGENT repository. The definitions below are a shallow embedding of
the Python source: `build_rounds` from question_generator.py, the
experience-based threshold, the round-boundary advance logic, the answer
submission handler and the analysis stage from app.py, and
`extract_text_from_pdf` from file_utils.py. Python dict fields that may be
absent or None are modelled as `Option`; Python truthiness on strings
(`a or b`) is modelled by `pyOr`; numeric scores use `ℚ`; the external LLM
calls are opaque parameters (`Except` for the fallible scoring call).
-/

namespace InterviewAgent

/-- Boolean substring test: does `haystack` contain `needle`? Models Python's
`needle in haystack` on strings. -/
def strContains (haystack needle : String) : Bool :=
  decide (needle.data <:+: haystack.data)

/-- Python's `str.lower()`, as a structural map over the characters. -/
def pyLower (s : String) : String := ⟨s.data.map Char.toLower⟩

/-- Drop leading and trailing whitespace characters of a character list. -/
def trimChars (l : List Char) : List Char :=
  ((l.dropWhile Char.isWhitespace).reverse.dropWhile Char.isWhitespace).reverse

/-- Python's `str.strip()`, as the structural trim of the character list. -/
def pyStrip (s : String) : String := ⟨trimChars s.data⟩

/-- Python's `str.replace(a, b)` in the single-character instance the source
uses (`.replace(" ", "_")`), as a structural map over the characters. -/
def pyReplace (s : String) (a b : Char) : String :=
  ⟨s.data.map fun c => if c = a then b else c⟩

/-- Python truthiness of an optional string: `None` and `""` are falsy. -/
def falsy : Option String → Bool
  | none => true
  | some s => s = ""

/-- Python's `a or b` on optional strings: returns `b` when `a` is falsy. -/
def pyOr (a b : Option String) : Option String :=
  if falsy a then b else a

/-- A normalized interview round as stored in `st.session_state.rounds`:
`{ "key": round_key, "name": round_name, "questions": [...] }`. -/
structure Round where
  key : String
  name : String
  questions : List String
  deriving Repr, DecidableEq

/-- An entry of a raw plan round's `questions` list: either a string or a
non-string JSON value (the latter is discarded by the cleanup filter). -/
inductive QEntry where
  | str (s : String)
  | nonStr
  deriving Repr, DecidableEq

/-- A raw round of the LLM-designed plan, before normalization. Each field is
a dict lookup that may be absent (`none`). -/
structure RawRound where
  round_key : Option String
  key : Option String
  round_name : Option String
  name : Option String
  questions : Option (List QEntry)
  deriving Repr, DecidableEq

/-- The LLM-designed interview plan: `plan.get("rounds", []) or []`. -/
structure Plan where
  rounds : Option (List RawRound)
  deriving Repr, DecidableEq

/-- Parsed job-description info; `build_rounds` receives it but never reads
it, so only the `role_title` field used elsewhere in app.py is kept. -/
structure JdInfo where
  role_title : Option String
  deriving Repr, DecidableEq

/-- Cleanup of a raw round's question list, from question_generator.py:
`[q for q in questions if isinstance(q, str) and q.strip()]`. -/
def cleanQuestions (qs : List QEntry) : List String :=
  qs.filterMap fun q =>
    match q with
    | .str t => if pyStrip t = "" then none else some t
    | .nonStr => none

/-- The display name chosen for a raw round:
`r.get("round_name") or r.get("name") or (round_key or "Interview Round")`
where `round_key = r.get("round_key") or r.get("key")`. The final fallback is
non-empty, so the chain always yields a string. -/
def rawRoundName (r : RawRound) : String :=
  (pyOr (pyOr r.round_name r.name)
    (pyOr (pyOr r.round_key r.key) (some "Interview Round"))).getD ""

/-- The key chosen for a raw round: `r.get("round_key") or r.get("key")`,
falling back to `round_name.lower().replace(" ", "_")` when that is falsy. -/
def rawRoundKey (r : RawRound) : String :=
  let k := pyOr r.round_key r.key
  if falsy k then pyReplace (pyLower (rawRoundName r)) ' ' '_'
  else k.getD ""

/-- The loop body of `build_rounds`: iterate over the raw rounds in order,
appending a normalized round exactly when its cleaned question list is
non-empty. -/
def build_rounds_loop : List RawRound → List Round
  | [] => []
  | r :: rs =>
    let cq := cleanQuestions (r.questions.getD [])
    if cq = [] then build_rounds_loop rs
    else ⟨rawRoundKey r, rawRoundName r, cq⟩ :: build_rounds_loop rs

/-- `build_rounds(jd_info, plan)` from question_generator.py. The `jd_info`
argument is accepted but unused, exactly as in the source. -/
def build_rounds (_jd_info : JdInfo) (plan : Plan) : List Round :=
  build_rounds_loop (plan.rounds.getD [])

/-- Statement of the spec's description of `build_rounds`, for comparison:
keep, in their original order, exactly the plan rounds whose question list is
non-empty after filtering, each normalized to `{key, name, questions}`. -/
def build_rounds_specModel (plan : Plan) : List Round :=
  ((plan.rounds.getD []).filter
      (fun r => !(cleanQuestions (r.questions.getD [])).isEmpty)).map
    (fun r => ⟨rawRoundKey r, rawRoundName r, cleanQuestions (r.questions.getD [])⟩)

/-- Candidate profile captured at onboarding; only the `experience` field
feeds the threshold policy. -/
structure Profile where
  experience : Option String
  deriving Repr, DecidableEq

/-- Lowercased experience string of a possibly-missing profile:
`(profile.get("experience") or "").lower()` with
`profile = st.session_state.get("profile") or {}`. -/
def expOf (p : Option Profile) : String :=
  pyLower ((p.getD ⟨none⟩).experience.getD "")

/-- `get_round_pass_threshold` from app.py: the pass threshold derived from
the candidate's declared experience level. -/
def get_round_pass_threshold (p : Option Profile) : ℚ :=
  if strContains (expOf p) "fresher" || strContains (expOf p) "intern" then 5
  else if strContains (expOf p) "junior" then 6
  else if strContains (expOf p) "mid" then 7
  else if strContains (expOf p) "senior" then 8
  else 6

/-- Every threshold the policy can return is at least 5. -/
lemma get_round_pass_threshold_ge_five (p : Option Profile) :
    (5 : ℚ) ≤ get_round_pass_threshold p := by
  unfold get_round_pass_threshold
  split_ifs <;> norm_num

/-- The structured result returned by the scoring oracle (`evaluate_answer`).
Only the nested `"scores"` dict matters to the state machine; it is modelled
as an association list, which may lack the `"overall_impression"` entry. -/
structure ScoringResult where
  scores : List (String × ℚ)
  deriving Repr, DecidableEq

/-- Extraction of the overall score from a scoring result:
`ev["evaluation"].get("scores", {}).get("overall_impression", None)`. -/
def overallImpression (r : ScoringResult) : Option ℚ :=
  r.scores.lookup "overall_impression"

/-- One entry of `st.session_state.evaluations`, appended by the submit
handler in app.py. -/
structure Evaluation where
  round_key : String
  round_name : String
  question : String
  answer : String
  evaluation : ScoringResult
  timestamp : Nat
  deriving Repr, DecidableEq

/-- The slice of `st.session_state` that the interview loop reads and
mutates. -/
structure InterviewState where
  profile : Option Profile
  rounds : List Round
  current_round_index : Nat
  question_index_in_round : Nat
  evaluations : List Evaluation
  interview_finished : Bool
  candidate_started : Bool
  stage : String
  deriving Repr, DecidableEq

/-- What one render pass of `render_interview` does besides mutating state:
show the intro screen, ask the current question, announce a round advance,
end the interview at a round boundary, or hand off to the results stage. -/
inductive StepSignal where
  | introScreen
  | askQuestion
  | advanced
  | ended
  | toResults
  deriving Repr, DecidableEq

/-- Errors the spec's error taxonomy names; used to record what, if anything,
a handler surfaces. -/
inductive SessionError where
  | invalidTransition
  | configurationError
  deriving Repr, DecidableEq

/-- The score-collection loop at the round boundary in `render_interview`:
one pass over `st.session_state.evaluations`, keeping the
`overall_impression` of each evaluation whose `round_key` matches (entries
whose score is `None` are skipped). -/
def roundScores (evals : List Evaluation) (round_key : String) : List ℚ :=
  evals.filterMap fun ev =>
    if ev.round_key = round_key then overallImpression ev.evaluation else none

/-- `avg_score = sum(scores) / len(scores) if scores else 0.0`. -/
def avgScore (scores : List ℚ) : ℚ :=
  if scores = [] then 0 else scores.sum / scores.length

/-- Placeholder round; `interviewStep` only reads it in branches where the
round index is already known to be in bounds. -/
def defaultRound : Round := ⟨"", "", []⟩

/-- The round currently pointed at by the cursors. -/
def currentRound (s : InterviewState) : Round :=
  s.rounds.getD s.current_round_index defaultRound

/-- One no-input render pass of the interview loop in `render_interview`
(lines after the intro screen): the exhausted-rounds check, the
round-boundary pass/fail decision, the question display, and the trailing
`interview_finished` hand-off to the results stage. -/
def interviewStep (s : InterviewState) : InterviewState × StepSignal :=
  if !s.candidate_started then
    (s, .introScreen)
  else if !s.interview_finished then
    if s.rounds.length ≤ s.current_round_index then
      ({ s with interview_finished := true, stage := "results" }, .toResults)
    else
      let current_round := currentRound s
      if current_round.questions.length ≤ s.question_index_in_round then
        let avg_score := avgScore (roundScores s.evaluations current_round.key)
        let threshold := get_round_pass_threshold s.profile
        if threshold ≤ avg_score ∧ s.current_round_index < s.rounds.length - 1 then
          ({ s with current_round_index := s.current_round_index + 1,
                    question_index_in_round := 0 }, .advanced)
        else
          ({ s with interview_finished := true, stage := "results" }, .ended)
      else
        (s, .askQuestion)
  else
    ({ s with stage := "results" }, .toResults)

/-- The submit-button handler in `render_interview`: strip the answer; if it
is blank, do nothing; otherwise call the scoring oracle inside `try`. On
success append one `Evaluation` record and increment
`question_index_in_round`; on an exception leave the state untouched. The
oracle call is passed in as an `Except` value. -/
def submitAnswer (s : InterviewState) (answer : String)
    (oracle : Except String ScoringResult) (now : Nat) : InterviewState :=
  let final_answer := pyStrip answer
  if final_answer = "" then s
  else
    match oracle with
    | .error _ => s
    | .ok eval_result =>
      let rnd := currentRound s
      let current_question := rnd.questions.getD s.question_index_in_round ""
      { s with
          evaluations := s.evaluations ++
            [⟨rnd.key, rnd.name, current_question, final_answer, eval_result, now⟩],
          question_index_in_round := s.question_index_in_round + 1 }

/-- The intro screen of `render_interview`: when the candidate has not
started, a click on the start button initializes the cursors and clears the
evaluations; once `candidate_started` is true the intro screen (and with it
the start button) is not rendered at all, so a start attempt has no effect
and surfaces no error. -/
def startStep (s : InterviewState) (clicked : Bool) :
    InterviewState × Option SessionError :=
  if !s.candidate_started then
    if clicked then
      ({ s with candidate_started := true, interview_finished := false,
                current_round_index := 0, question_index_in_round := 0,
                evaluations := [] }, none)
    else (s, none)
  else (s, none)

/-- The session-state slice `run_analysis` writes in addition to the
interview state. The opaque analysis artefacts are kept as stored values. -/
structure AppState where
  session : InterviewState
  resume_info : Option String
  jd_info : Option JdInfo
  match_report : Option String
  plan : Option Plan
  deriving Repr, DecidableEq

/-- Outcome of the analysis stage. -/
inductive AnalysisOutcome where
  | extractionFailed
  | noUsableRounds
  | configured
  deriving Repr, DecidableEq

/-- `run_analysis` from app.py, with the external calls passed in: the resume
text extraction result, the analysis artefacts and the plan. When the resume
text is missing, or `build_rounds` yields no rounds, an error is surfaced and
the function returns without storing anything; otherwise the artefacts and
rounds are stored, the interview state is reset and the stage moves to
"interview". -/
def run_analysis (s : AppState) (resume_text : Option String)
    (resume_info : String) (jd_info : JdInfo) (match_report : String)
    (plan : Plan) : AppState × AnalysisOutcome :=
  match resume_text with
  | none => (s, .extractionFailed)
  | some _ =>
    let rounds := build_rounds jd_info plan
    if rounds = [] then (s, .noUsableRounds)
    else
      ({ session :=
          { s.session with
              rounds := rounds, current_round_index := 0,
              question_index_in_round := 0, evaluations := [],
              interview_finished := false, candidate_started := false,
              stage := "interview" },
         resume_info := some resume_info, jd_info := some jd_info,
         match_report := some match_report, plan := some plan },
       .configured)

/-- `extract_text_from_pdf` from file_utils.py. The PyPDF2 reader and its
per-page text extraction are the external collaborator, passed in as a
fallible function from the file bytes to the list of per-page results (a
page's `extract_text()` may return `None`); any exception anywhere in the
`try` block yields `.error`, which the `except` clause turns into `none`.
The page texts are joined with newlines, stripped, and an empty result
becomes `none`. -/
def extract_text_from_pdf (reader : List Nat → Except Unit (List (Option String)))
    (file_bytes : List Nat) : Option String :=
  match reader file_bytes with
  | .error _ => none
  | .ok pages =>
    let texts := pages.map fun t => t.getD ""
    let full_text := pyStrip (String.intercalate "\n" texts)
    if full_text = "" then none else some full_text

/-! Concrete states and inputs used to instantiate the theorems below. -/

/-- A two-round configuration at the boundary of the first round, with one
scored answer recorded. -/
def stBoundary : InterviewState :=
  ⟨none, [⟨"a", "A", ["q1"]⟩, ⟨"b", "B", ["q2"]⟩], 0, 1,
   [⟨"a", "A", "q1", "an answer", ⟨[("overall_impression", 8)]⟩, 0⟩],
   false, true, "interview"⟩

/-- A finished session. -/
def stFin : InterviewState :=
  ⟨none, [⟨"a", "A", ["q1"]⟩], 0, 1,
   [⟨"a", "A", "q1", "an answer", ⟨[("overall_impression", 3)]⟩, 0⟩],
   true, true, "interview"⟩

/-- A started, in-progress session. -/
def stStarted : InterviewState :=
  ⟨none, [⟨"a", "A", ["q1"]⟩], 0, 0, [], false, true, "interview"⟩

/-- An app state still in the analysis stage, nothing configured yet. -/
def stAnalysis : AppState :=
  ⟨⟨none, [], 0, 0, [], false, false, "analysis"⟩, none, none, none, none⟩

/-- A plan whose only round has no usable questions, so `build_rounds`
returns no rounds. -/
def planUnusable : Plan :=
  ⟨some [⟨some "tech", none, some "Tech Round", none, some [.str "   ", .nonStr]⟩]⟩

/-- A plan with two usable rounds that carry the same `round_key`. -/
def planDupKeys : Plan :=
  ⟨some [⟨some "tech", none, some "Tech Round 1", none, some [.str "q1"]⟩,
         ⟨some "tech", none, some "Tech Round 2", none, some [.str "q2"]⟩]⟩

/-- A plan with one usable round whose key must be derived from its name,
plus one round discarded for having only blank or non-string questions. -/
def planMixed : Plan :=
  ⟨some [⟨none, none, some "HR Screening", none, some [.str "q1", .nonStr, .str "  "]⟩,
         ⟨some "tech", none, some "Tech Round", none, some [.nonStr]⟩]⟩

/-- A plan with two usable rounds carrying distinct keys. -/
def planTwo : Plan :=
  ⟨some [⟨some "hr", none, some "HR", none, some [.str "q1"]⟩,
         ⟨some "tech", none, some "Tech", none, some [.str "q2"]⟩]⟩

/-! Theorems. -/

/-- C4: the finished state is terminal and stable. For every started session
with `interview_finished = true`, a render pass of the interview loop leaves
`current_round_index`, `question_index_in_round`, `evaluations` and
`interview_finished` unchanged and yields the hand-off to the results
stage. -/
theorem finished_terminal_stable (s : InterviewState)
    (hstart : s.candidate_started = true) (hfin : s.interview_finished = true) :
    (interviewStep s).1.current_round_index = s.current_round_index ∧
    (interviewStep s).1.question_index_in_round = s.question_index_in_round ∧
    (interviewStep s).1.evaluations = s.evaluations ∧
    (interviewStep s).1.interview_finished = s.interview_finished ∧
    (interviewStep s).2 = StepSignal.toResults := by
  simp [interviewStep, hstart, hfin]

/-- Witness for C4 at the concrete finished session `stFin`. -/
theorem finished_terminal_stable_witness :
    (interviewStep stFin).1.current_round_index = stFin.current_round_index ∧
    (interviewStep stFin).1.question_index_in_round = stFin.question_index_in_round ∧
    (interviewStep stFin).1.evaluations = stFin.evaluations ∧
    (interviewStep stFin).1.interview_finished = stFin.interview_finished ∧
    (interviewStep stFin).2 = StepSignal.toResults :=
  finished_terminal_stable stFin rfl rfl

/-- C6: a plan that yields zero non-empty rounds is a configuration failure.
When `build_rounds` returns the empty list, `run_analysis` surfaces the
error and returns with the app state exactly as it was: the plan and rounds
are not stored, the interview state is not re-initialized, and the stage
does not move to the interview stage. -/
theorem empty_rounds_configuration_failure (s : AppState) (txt ri mr : String)
    (jd : JdInfo) (plan : Plan) (h : build_rounds jd plan = []) :
    run_analysis s (some txt) ri jd mr plan = (s, AnalysisOutcome.noUsableRounds) := by
  simp [run_analysis, h]

/-- Witness for C6 at the concrete unusable plan `planUnusable`. -/
theorem empty_rounds_configuration_failure_witness :
    run_analysis stAnalysis (some "resume text") "ri" ⟨none⟩ "mr" planUnusable =
      (stAnalysis, AnalysisOutcome.noUsableRounds) :=
  empty_rounds_configuration_failure stAnalysis "resume text" "ri" "mr" ⟨none⟩
    planUnusable (by decide)

/-- C8 counterexample: on an already-started session a start attempt is NOT
rejected with an explicit `InvalidTransitionError` — the intro screen (and
its start control) is simply not rendered, so no error is surfaced at all;
the state is unchanged. This refutes the claim that the second start is
rejected with an explicit error. -/
theorem second_start_silent_counterexample :
    (startStep stStarted true).1 = stStarted ∧
    (startStep stStarted true).2 ≠ some SessionError.invalidTransition ∧
    (startStep stStarted true).2 = none := by
  refine ⟨rfl, ?_, rfl⟩
  simp [startStep, stStarted]

/-- C8 (amended): a start attempt on an already-started session has no
effect and surfaces no error: the session state is unchanged from after the
first start, but the rejection is silent (the start control is unreachable),
not an explicit `InvalidTransitionError`. -/
theorem second_start_noop (s : InterviewState) (clicked : Bool)
    (h : s.candidate_started = true) :
    startStep s clicked = (s, none) := by
  simp [startStep, h]

/-- Witness for the amended C8 at the concrete started session. -/
theorem second_start_noop_witness :
    startStep stStarted true = (stStarted, none) :=
  second_start_noop stStarted true rfl

/-- C9: the round-pass threshold derived from the declared experience level.
Matching is on the lowercased experience string, with the source's priority
order: `intern`/`fresher` → 5.0, else `junior` → 6.0, else `mid` → 7.0, else
`senior` → 8.0, anything else — including a missing profile — → 6.0. -/
theorem experience_threshold_mapping (p : Option Profile) :
    (strContains (expOf p) "intern" = true ∨ strContains (expOf p) "fresher" = true →
      get_round_pass_threshold p = 5) ∧
    (strContains (expOf p) "intern" = false → strContains (expOf p) "fresher" = false →
      strContains (expOf p) "junior" = true → get_round_pass_threshold p = 6) ∧
    (strContains (expOf p) "intern" = false → strContains (expOf p) "fresher" = false →
      strContains (expOf p) "junior" = false → strContains (expOf p) "mid" = true →
      get_round_pass_threshold p = 7) ∧
    (strContains (expOf p) "intern" = false → strContains (expOf p) "fresher" = false →
      strContains (expOf p) "junior" = false → strContains (expOf p) "mid" = false →
      strContains (expOf p) "senior" = true → get_round_pass_threshold p = 8) ∧
    (strContains (expOf p) "intern" = false → strContains (expOf p) "fresher" = false →
      strContains (expOf p) "junior" = false → strContains (expOf p) "mid" = false →
      strContains (expOf p) "senior" = false → get_round_pass_threshold p = 6) ∧
    (p = none → get_round_pass_threshold p = 6) := by
  refine ⟨?_, ?_, ?_, ?_, ?_, ?_⟩
  · rintro (h | h) <;> simp [get_round_pass_threshold, h]
  · intro h1 h2 h3
    simp [get_round_pass_threshold, h1, h2, h3]
  · intro h1 h2 h3 h4
    simp [get_round_pass_threshold, h1, h2, h3, h4]
  · intro h1 h2 h3 h4 h5
    simp [get_round_pass_threshold, h1, h2, h3, h4, h5]
  · intro h1 h2 h3 h4 h5
    simp [get_round_pass_threshold, h1, h2, h3, h4, h5]
  · intro h
    subst h
    rfl

/-- Witness for C9 across all five threshold bands and the missing
profile. -/
theorem experience_threshold_mapping_witness :
    get_round_pass_threshold (some ⟨some "Fresher"⟩) = 5 ∧
    get_round_pass_threshold (some ⟨some "Junior Developer"⟩) = 6 ∧
    get_round_pass_threshold (some ⟨some "Mid-level"⟩) = 7 ∧
    get_round_pass_threshold (some ⟨some "Senior Engineer"⟩) = 8 ∧
    get_round_pass_threshold (some ⟨some "Principal"⟩) = 6 ∧
    get_round_pass_threshold none = 6 :=
  ⟨(experience_threshold_mapping (some ⟨some "Fresher"⟩)).1 (Or.inr (by decide)),
   (experience_threshold_mapping (some ⟨some "Junior Developer"⟩)).2.1
     (by decide) (by decide) (by decide),
   (experience_threshold_mapping (some ⟨some "Mid-level"⟩)).2.2.1
     (by decide) (by decide) (by decide) (by decide),
   (experience_threshold_mapping (some ⟨some "Senior Engineer"⟩)).2.2.2.1
     (by decide) (by decide) (by decide) (by decide) (by decide),
   (experience_threshold_mapping (some ⟨some "Principal"⟩)).2.2.2.2.1
     (by decide) (by decide) (by decide) (by decide) (by decide),
   (experience_threshold_mapping none).2.2.2.2.2 rfl⟩

/-- C10: `extract_text_from_pdf` is total (any exception in the reading and
per-page extraction is caught) and returns either `none` or a non-empty
string; a failed extraction yields `none`, and a result that strips to the
empty string yields `none`, never the empty string. -/
theorem extract_text_from_pdf_total_spec
    (reader : List Nat → Except Unit (List (Option String)))
    (file_bytes : List Nat) :
    (extract_text_from_pdf reader file_bytes = none ∨
      ∃ s, extract_text_from_pdf reader file_bytes = some s ∧ s ≠ "") ∧
    (∀ e, reader file_bytes = .error e →
      extract_text_from_pdf reader file_bytes = none) ∧
    (∀ pages, reader file_bytes = .ok pages →
      pyStrip (String.intercalate "\n" (pages.map fun t => t.getD "")) = "" →
      extract_text_from_pdf reader file_bytes = none) := by
  refine ⟨?_, ?_, ?_⟩
  · cases h : reader file_bytes with
    | error e => left; simp [extract_text_from_pdf, h]
    | ok pages =>
      by_cases he : pyStrip (String.intercalate "\n" (pages.map fun t => t.getD "")) = ""
      · left; simp [extract_text_from_pdf, h, he]
      · right
        exact ⟨_, by simp [extract_text_from_pdf, h, he], he⟩
  · intro e h
    simp [extract_text_from_pdf, h]
  · intro pages h he
    simp [extract_text_from_pdf, h, he]

/-- Witness for C10: a reader whose pages strip to whitespace only. -/
theorem extract_text_from_pdf_total_spec_witness :
    extract_text_from_pdf (fun _ => .ok [some "   ", none]) [] = none :=
  (extract_text_from_pdf_total_spec (fun _ => .ok [some "   ", none]) []).2.2
    [some "   ", none] rfl (by decide)

/-- Helper: the score-collection pass equals filtering by round key and then
extracting the present scores. -/
lemma roundScores_eq_filter (evals : List Evaluation) (key : String) :
    roundScores evals key =
      (evals.filter fun ev => ev.round_key = key).filterMap
        fun ev => overallImpression ev.evaluation := by
  induction evals with
  | nil => rfl
  | cons ev t ih =>
    by_cases h : ev.round_key = key
    · cases hoi : overallImpression ev.evaluation <;>
        simp [roundScores, List.filterMap_cons, List.filter_cons, h, hoi] <;>
        simpa [roundScores] using ih
    · simpa [roundScores, List.filterMap_cons, List.filter_cons, h] using ih

/-- Helper: when every evaluation matching the key lacks an overall score,
no score is collected. -/
lemma roundScores_nil_of_unscored (evals : List Evaluation) (key : String)
    (h : ∀ ev ∈ evals, ev.round_key = key → overallImpression ev.evaluation = none) :
    roundScores evals key = [] := by
  rw [roundScores_eq_filter]
  rw [List.filterMap_eq_nil_iff]
  intro ev hev
  rcases List.mem_filter.mp hev with ⟨hmem, hkey⟩
  exact h ev hmem (by simpa using hkey)

/-- C2: the round-pass decision. Scores are collected from exactly the
evaluations whose `round_key` matches and that carry an `overall_impression`
score; an evaluation lacking the score is excluded, not counted as zero; the
average is the sum of the collected scores divided by their count, or 0.0 if
none exist; passing is `threshold ≤ average`, with exact equality a pass; a
round whose matching evaluations all lack the score averages 0.0 and fails
(every threshold the policy yields is at least 5). -/
theorem round_pass_policy_spec (key : String) (evals : List Evaluation)
    (p : Option Profile) :
    (roundScores evals key =
      (evals.filter fun ev => ev.round_key = key).filterMap
        fun ev => overallImpression ev.evaluation) ∧
    (∀ ev : Evaluation, overallImpression ev.evaluation = none →
      roundScores (ev :: evals) key = roundScores evals key) ∧
    (roundScores evals key ≠ [] →
      avgScore (roundScores evals key) =
        (roundScores evals key).sum / (roundScores evals key).length) ∧
    (avgScore (roundScores evals key) = get_round_pass_threshold p →
      get_round_pass_threshold p ≤ avgScore (roundScores evals key)) ∧
    ((∀ ev ∈ evals, ev.round_key = key → overallImpression ev.evaluation = none) →
      avgScore (roundScores evals key) = 0 ∧
      ¬ get_round_pass_threshold p ≤ avgScore (roundScores evals key)) := by
  refine ⟨roundScores_eq_filter evals key, ?_, ?_, ?_, ?_⟩
  · intro ev hoi
    simp [roundScores, List.filterMap_cons, hoi]
  · intro h
    simp [avgScore, h]
  · intro h
    exact le_of_eq h.symm
  · intro h
    have hnil := roundScores_nil_of_unscored evals key h
    have havg : avgScore (roundScores evals key) = 0 := by simp [avgScore, hnil]
    refine ⟨havg, fun hle => ?_⟩
    have h5 := get_round_pass_threshold_ge_five p
    rw [havg] at hle
    linarith

/-- Witness for C2: a round whose only matching evaluation lacks the overall
score averages 0 and fails, and a round whose single score exactly equals
the default threshold 6 passes. -/
theorem round_pass_policy_spec_witness :
    (avgScore (roundScores [⟨"a", "A", "q", "ans", ⟨[("relevance", 2)]⟩, 0⟩] "a") = 0 ∧
      ¬ get_round_pass_threshold none ≤
        avgScore (roundScores [⟨"a", "A", "q", "ans", ⟨[("relevance", 2)]⟩, 0⟩] "a")) ∧
    get_round_pass_threshold none ≤
      avgScore (roundScores [⟨"a", "A", "q", "ans", ⟨[("overall_impression", 6)]⟩, 0⟩] "a") :=
  ⟨(round_pass_policy_spec "a" [⟨"a", "A", "q", "ans", ⟨[("relevance", 2)]⟩, 0⟩]
      none).2.2.2.2 (by decide),
   (round_pass_policy_spec "a" [⟨"a", "A", "q", "ans", ⟨[("overall_impression", 6)]⟩, 0⟩]
      none).2.2.2.1 (by
        have h1 : roundScores
            [⟨"a", "A", "q", "ans", ⟨[("overall_impression", 6)]⟩, 0⟩] "a" = [(6 : ℚ)] := by
          decide
        have h2 : get_round_pass_threshold none = 6 := rfl
        rw [h1, h2]
        norm_num [avgScore])⟩

/-- C3: the submit handler is atomic with respect to the scoring call. When
the (non-blank) answer's scoring call succeeds, exactly one `Evaluation`
carrying the current round's key and name, the current question, the
stripped answer, the scoring result and the timestamp is appended and
`question_index_in_round` is incremented by exactly 1 (everything else
unchanged); when the scoring call raises, the state is exactly as before. -/
theorem submit_answer_atomic (s : InterviewState) (answer : String)
    (res : ScoringResult) (err : String) (now : Nat)
    (h : pyStrip answer ≠ "") :
    submitAnswer s answer (.ok res) now =
      { s with
          evaluations := s.evaluations ++
            [⟨(currentRound s).key, (currentRound s).name,
              (currentRound s).questions.getD s.question_index_in_round "",
              pyStrip answer, res, now⟩],
          question_index_in_round := s.question_index_in_round + 1 } ∧
    submitAnswer s answer (.error err) now = s := by
  constructor <;> simp [submitAnswer, h]

/-- Witness for C3 at the concrete in-progress session `stStarted`. -/
theorem submit_answer_atomic_witness :
    submitAnswer stStarted " my answer " (.ok ⟨[("overall_impression", 7)]⟩) 5 =
      { stStarted with
          evaluations := stStarted.evaluations ++
            [⟨(currentRound stStarted).key, (currentRound stStarted).name,
              (currentRound stStarted).questions.getD
                stStarted.question_index_in_round "",
              pyStrip " my answer ", ⟨[("overall_impression", 7)]⟩, 5⟩],
          question_index_in_round := stStarted.question_index_in_round + 1 } ∧
    submitAnswer stStarted " my answer " (.error "oracle failure") 5 = stStarted :=
  submit_answer_atomic stStarted " my answer " ⟨[("overall_impression", 7)]⟩
    "oracle failure" 5 (by decide)

/-- C1: behavior of the advance decision at a render pass of an in-progress
session whose round index is in bounds. If the current round's questions are
exhausted: when the round average passes the threshold and the round is not
the last, `current_round_index` is incremented by exactly 1,
`question_index_in_round` resets to 0 and the session is not finished; when
the round fails, or passes but is the last round, the session is finished
and the cursors are not advanced. If the round is not exhausted, the state
is unchanged and the next question is asked. -/
theorem round_boundary_advance_spec (s : InterviewState)
    (hstart : s.candidate_started = true)
    (hnf : s.interview_finished = false)
    (hin : s.current_round_index < s.rounds.length) :
    ((currentRound s).questions.length ≤ s.question_index_in_round →
      (get_round_pass_threshold s.profile ≤
            avgScore (roundScores s.evaluations (currentRound s).key) ∧
          s.current_round_index < s.rounds.length - 1 →
        (interviewStep s).1.current_round_index = s.current_round_index + 1 ∧
        (interviewStep s).1.question_index_in_round = 0 ∧
        (interviewStep s).1.interview_finished = false ∧
        (interviewStep s).1.evaluations = s.evaluations ∧
        (interviewStep s).2 = StepSignal.advanced) ∧
      (¬ (get_round_pass_threshold s.profile ≤
            avgScore (roundScores s.evaluations (currentRound s).key) ∧
          s.current_round_index < s.rounds.length - 1) →
        (interviewStep s).1.interview_finished = true ∧
        (interviewStep s).1.current_round_index = s.current_round_index ∧
        (interviewStep s).1.question_index_in_round = s.question_index_in_round ∧
        (interviewStep s).1.evaluations = s.evaluations ∧
        (interviewStep s).2 = StepSignal.ended)) ∧
    (s.question_index_in_round < (currentRound s).questions.length →
      interviewStep s = (s, StepSignal.askQuestion)) := by
  have h3 : ¬ s.rounds.length ≤ s.current_round_index := Nat.not_le.mpr hin
  refine ⟨fun hex => ⟨fun hpass => ?_, fun hfail => ?_⟩, fun hlt => ?_⟩
  · simp [interviewStep, hstart, hnf, h3, hex, hpass]
  · simp [interviewStep, hstart, hnf, h3, hex, hfail]
  · have hne : ¬ (currentRound s).questions.length ≤ s.question_index_in_round :=
      Nat.not_le.mpr hlt
    simp [interviewStep, hstart, hnf, h3, hne]

/-- Witness for C1 at the concrete boundary state `stBoundary`: round A
scored 8 against threshold 6, a second round follows, so the step advances
to round B and resets the question cursor. -/
theorem round_boundary_advance_spec_witness :
    (interviewStep stBoundary).1.current_round_index =
        stBoundary.current_round_index + 1 ∧
    (interviewStep stBoundary).1.question_index_in_round = 0 ∧
    (interviewStep stBoundary).1.interview_finished = false ∧
    (interviewStep stBoundary).1.evaluations = stBoundary.evaluations ∧
    (interviewStep stBoundary).2 = StepSignal.advanced :=
  ((round_boundary_advance_spec stBoundary rfl rfl (by decide)).1
    (by decide)).1 (by
      constructor
      · have h1 : roundScores stBoundary.evaluations (currentRound stBoundary).key =
            [(8 : ℚ)] := by decide
        have h2 : get_round_pass_threshold stBoundary.profile = 6 := rfl
        rw [h1, h2]
        norm_num [avgScore]
      · decide)

/-- Helper: the append loop of `build_rounds` keeps, in order, exactly the
raw rounds with a non-empty cleaned question list, normalized. -/
lemma build_rounds_loop_eq (rs : List RawRound) :
    build_rounds_loop rs =
      (rs.filter fun r => !(cleanQuestions (r.questions.getD [])).isEmpty).map
        fun r => ⟨rawRoundKey r, rawRoundName r, cleanQuestions (r.questions.getD [])⟩ := by
  induction rs with
  | nil => rfl
  | cons r t ih =>
    by_cases h : cleanQuestions (r.questions.getD []) = []
    · simp [build_rounds_loop, List.filter_cons, h, ih]
    · simp [build_rounds_loop, List.filter_cons, h, ih]

/-- C5: `build_rounds` returns exactly the plan's rounds that still have at
least one question after removing blank and non-string entries, in their
original order, each normalized to `{key, name, questions}`; a round whose
`round_key`/`key` fields are both missing gets a key derived as the slug of
its name (lowercased, spaces replaced by underscores). -/
theorem build_rounds_spec (jd : JdInfo) (plan : Plan) :
    build_rounds jd plan = build_rounds_specModel plan ∧
    (∀ r : RawRound, r.round_key = none → r.key = none →
      rawRoundKey r = pyReplace (pyLower (rawRoundName r)) ' ' '_') := by
  constructor
  · simpa [build_rounds, build_rounds_specModel] using
      build_rounds_loop_eq (plan.rounds.getD [])
  · intro r h1 h2
    simp [rawRoundKey, pyOr, falsy, h1, h2]

/-- Witness for C5 at the concrete plan `planMixed`: the empty round is
dropped, the surviving round keeps only its non-blank string question, and
its key is the slug of its name. -/
theorem build_rounds_spec_witness :
    build_rounds ⟨none⟩ planMixed = build_rounds_specModel planMixed ∧
    build_rounds ⟨none⟩ planMixed = [⟨"hr_screening", "HR Screening", ["q1"]⟩] ∧
    rawRoundKey ⟨none, none, some "HR Screening", none,
        some [QEntry.str "q1", QEntry.nonStr, QEntry.str "  "]⟩ =
      pyReplace (pyLower (rawRoundName ⟨none, none, some "HR Screening", none,
        some [QEntry.str "q1", QEntry.nonStr, QEntry.str "  "]⟩)) ' ' '_' :=
  ⟨(build_rounds_spec ⟨none⟩ planMixed).1, by decide,
   (build_rounds_spec ⟨none⟩ planMixed).2 _ rfl rfl⟩

/-- C7 counterexample: `build_rounds` does not enforce key uniqueness. A
plan whose two usable rounds both declare `round_key = "tech"` produces a
session round list whose keys are not pairwise distinct, refuting the claim
that for every plan input the produced keys are pairwise distinct. -/
theorem duplicate_round_keys_counterexample :
    (build_rounds ⟨none⟩ planDupKeys).map Round.key = ["tech", "tech"] ∧
    ¬ ((build_rounds ⟨none⟩ planDupKeys).map Round.key).Nodup := by
  constructor <;> decide

/-- C7 (amended): `build_rounds` preserves the derived key of every
surviving plan round, so the produced keys are pairwise distinct whenever
the plan's surviving rounds have pairwise-distinct derived keys; uniqueness
is inherited from the plan, not enforced by the code. -/
theorem round_keys_unique_of_plan_unique (jd : JdInfo) (plan : Plan)
    (h : (((plan.rounds.getD []).filter
        fun r => !(cleanQuestions (r.questions.getD [])).isEmpty).map
          rawRoundKey).Nodup) :
    ((build_rounds jd plan).map Round.key).Nodup := by
  rw [build_rounds, build_rounds_loop_eq, List.map_map]
  simpa using h

/-- Witness for C7 (amended) at the concrete plan `planTwo` with distinct
declared keys. -/
theorem round_keys_unique_of_plan_unique_witness :
    ((build_rounds ⟨none⟩ planTwo).map Round.key).Nodup :=
  round_keys_unique_of_plan_unique ⟨none⟩ planTwo (by decide)

end InterviewAgent
